import Mathlib

/-!
# Shallow embedding of the order/checkout workflow of `mma_skincare`

This file embeds the order workflow of `src/routes/orderRoute.js` together
with the relevant parts of the Mongoose data model
(`src/models/order.model.js`, the Product schema) and proves / refutes the
frozen claims about it.

Modelling decisions, each traceable to the source:

* The persistent store (MongoDB collections) is a pair of association lists
  keyed by numeric identifiers (standing for ObjectIds).  `findById` is a
  first-match lookup; `save` on a fetched document writes the document back
  under its key (last write wins, as a Mongoose `save()` issuing a `$set`
  of the modified paths does).
* Each `db.Product.findById` in the JS performs a fresh read of the
  persisted state: two line items naming the same product each see the
  stock as it is in the store, not the other item's in-memory decrement.
  The embedding mirrors this by reading every item from the same snapshot
  `st` inside the reservation loop and deferring all writes, exactly as
  the handler defers `product.save()` to the loop at lines 137-139.
* Mongoose validation on `Order.save()` is modelled from
  `src/models/order.model.js`: the `promotion` path has type ObjectId, so
  the route's default value — the literal string "None" from
  `const { promotion = "None" } = req.body` — fails the ObjectId cast and
  the save rejects; the `items.quantity` path carries `min: 1`.
* The e-mail block of the cancel handler (lines 287-307) evaluates
  `account.email` where no variable `account` is in scope, so it throws a
  ReferenceError before `return res.status(200)` at line 309 can run; the
  whole `else` branch therefore ends in the catch-all 500.  The embedding
  records this as `Resp.serverError` after the writes that precede it.
* The external VNPay gateway call is an oracle parameter `gatewayOk`.
-/

namespace MmaSkincare

/-- Order status, from the `enum: ["Pending", "Paid", "Canceled"]` of
`OrderSchema.status` in `src/models/order.model.js`. -/
inductive OrderStatus where
  | Pending
  | Paid
  | Canceled
deriving DecidableEq, Repr

/-- A catalog product: the fields of the Product schema that the order
workflow reads or writes (`name`, `quantity`, `price`).  JS numbers are
modelled as `Int`. -/
structure Product where
  name : String
  quantity : Int
  price : Int
deriving DecidableEq, Repr

/-- A `{product, quantity}` line item (`OrderSchema.items`). -/
structure LineItem where
  product : Nat
  quantity : Int
deriving DecidableEq, Repr

/-- A persisted order: `account`, `items`, optional `promotion` ObjectId
reference, `totalAmount`, `status` (`src/models/order.model.js`). -/
structure Order where
  account : Nat
  items : List LineItem
  promotion : Option Nat
  totalAmount : Int
  status : OrderStatus
deriving DecidableEq, Repr

/-- The persisted state: the Product and Order collections, plus the next
fresh ObjectId for an order insert. -/
structure St where
  products : List (Nat × Product)
  orders : List (Nat × Order)
  nextOrderId : Nat
deriving DecidableEq, Repr

/-- `Model.findById`: first entry of the collection with the given key. -/
def findById {α : Type} (l : List (Nat × α)) (k : Nat) : Option α :=
  (l.find? (fun p => p.1 = k)).map Prod.snd

/-- `document.save()` for a document with key `k`: overwrite the entry if
the key is present, otherwise append it. -/
def saveById {α : Type} (l : List (Nat × α)) (k : Nat) (v : α) : List (Nat × α) :=
  if (l.find? (fun p => p.1 = k)).isSome then
    l.map (fun p => if p.1 = k then (k, v) else p)
  else
    l ++ [(k, v)]

def St.findProduct (st : St) (pid : Nat) : Option Product :=
  findById st.products pid

def St.findOrder (st : St) (oid : Nat) : Option Order :=
  findById st.orders oid

def St.saveProduct (st : St) (pid : Nat) (p : Product) : St :=
  { st with products := saveById st.products pid p }

def St.saveOrder (st : St) (oid : Nat) (o : Order) : St :=
  { st with orders := saveById st.orders oid o }

/-- `new db.Order(...)` followed by `newOrder.save()`: insert under the
fresh id and advance the id supply. -/
def St.insertOrder (st : St) (o : Order) : St :=
  { st with orders := st.orders ++ [(st.nextOrderId, o)], nextOrderId := st.nextOrderId + 1 }

/-- HTTP-level outcomes the three handlers can produce. -/
inductive Resp where
  /-- 201 `{vnpayResponse, orderId}` (add-to-cart success, line 177). -/
  | created (orderId : Nat)
  /-- 200 `{message, refundAmount}` — the cancel handler's line 309; kept
  for completeness although the e-mail ReferenceError makes it
  unreachable. -/
  | ok (message : String) (refundAmount : Int)
  /-- 400 with a message. -/
  | badRequest (message : String)
  /-- 404 with a message. -/
  | notFound (message : String)
  /-- 500 `Server error.` / `Lỗi máy chủ` from a catch-all. -/
  | serverError
  /-- redirect to the payment-success page (line 328). -/
  | redirectSuccess
  /-- redirect to the payment-failed page (line 330). -/
  | redirectFailed
  /-- the handler function returned without sending any response (the
  cancel handler's `for` loop over an empty `order.items`). -/
  | noResponse
deriving DecidableEq, Repr

/-- The 404 message of line 122. -/
def productNotFoundMsg (pid : Nat) : String :=
  "Product with ID " ++ toString pid ++ " not found."

/-- The 400 message of lines 126-128. -/
def insufficientStockMsg (name : String) (available requested : Int) : String :=
  "Not enough stock for " ++ name ++ ". Available: " ++ toString available ++
    ", Requested: " ++ toString requested

/-- The `for (const item of items)` loop of lines 119-134: fetch each
product fresh from the store, 404 on a missing product, 400 on
insufficient stock, otherwise accumulate the running `totalAmount` and the
in-memory decremented product copies (`updatedProducts`).  Nothing is
persisted by this loop. -/
def reserveItems (st : St) : List LineItem → Int → List (Nat × Product) →
    Except Resp (Int × List (Nat × Product))
  | [], total, acc => .ok (total, acc)
  | item :: rest, total, acc =>
    match st.findProduct item.product with
    | none => .error (.notFound (productNotFoundMsg item.product))
    | some p =>
      if p.quantity < item.quantity then
        .error (.badRequest (insufficientStockMsg p.name p.quantity item.quantity))
      else
        reserveItems st rest (total + item.quantity * p.price)
          (acc ++ [(item.product, { p with quantity := p.quantity - item.quantity })])

/-- The value the route puts in the `promotion` field of the new order
document: the request's promotion id, or — via the destructuring default
`promotion = "None"` at line 110 — the literal string `"None"`. -/
inductive PromoField where
  | objectId (id : Nat)
  | noneLiteral
deriving DecidableEq, Repr

/-- Whether the value casts to the `ObjectId` type declared for
`OrderSchema.promotion`: the string `"None"` does not. -/
def PromoField.castOk : PromoField → Bool
  | .objectId _ => true
  | .noneLiteral => false

/-- The ObjectId stored when the cast succeeds. -/
def PromoField.toRef : PromoField → Option Nat
  | .objectId n => some n
  | .noneLiteral => none

/-- `newOrder.save()` validation per `src/models/order.model.js`: the
`promotion` value must cast to an ObjectId and every item quantity must
satisfy `min: 1`. -/
def orderSaveValidates (promo : PromoField) (items : List LineItem) : Bool :=
  promo.castOk && items.all (fun it => 1 ≤ it.quantity)

/-- `POST /add-to-cart` (lines 108-181).  `account?` is `none` when the
request carries no account (the falsy check of line 112); `promotion?` is
`none` when the request carries no promotion, in which case the handler
uses the string default `"None"`; `gatewayOk` is the outcome of the
`vnpay.buildPaymentUrl` call. -/
def addToCart (st : St) (account? : Option Nat) (items : List LineItem)
    (promotion? : Option Nat) (gatewayOk : Bool) : St × Resp :=
  match account? with
  | none => (st, .badRequest "An order must contain at least one product.")
  | some account =>
    if items.isEmpty then
      (st, .badRequest "An order must contain at least one product.")
    else
      match reserveItems st items 0 [] with
      | .error r => (st, r)
      | .ok (totalAmount, updatedProducts) =>
        let st1 := updatedProducts.foldl (fun s pr => s.saveProduct pr.1 pr.2) st
        let promoVal := match promotion? with
          | some n => PromoField.objectId n
          | none => PromoField.noneLiteral
        if orderSaveValidates promoVal items then
          let st2 := st1.insertOrder
            { account := account, items := items, promotion := promoVal.toRef,
              totalAmount := totalAmount, status := .Pending }
          if gatewayOk then
            (st2, .created st1.nextOrderId)
          else
            (st2, .serverError)
        else
          (st1, .serverError)

/-- `POST /cancel-order/:orderId` (lines 257-318).  A `Paid` order with at
least one line item reaches the first loop iteration: the first item's
product stock is restored and saved, the order is saved as `Canceled`, and
then building the e-mail evaluates `account.email` with no `account` in
scope — a ReferenceError caught by the handler's `catch`, hence 500.  A
`Paid` order with no items never enters the loop and no response is
sent. -/
def cancelOrder (st : St) (orderId : Nat) : St × Resp :=
  match st.findOrder orderId with
  | none => (st, .notFound "Không tìm thấy đơn hàng")
  | some o =>
    if o.status ≠ .Paid then
      (st, .badRequest "Only paid orders can be canceled.")
    else
      match o.items with
      | [] => (st, .noResponse)
      | item :: _ =>
        let st1 := match st.findProduct item.product with
          | some p => st.saveProduct item.product { p with quantity := p.quantity + item.quantity }
          | none => st
        let st2 := st1.saveOrder orderId { o with status := .Canceled }
        (st2, .serverError)

/-- `GET /vnpay-return` (lines 320-335): on response code "00" run
`findByIdAndUpdate(txnRef, { status: "Paid" })` — unconditionally set the
status to `Paid` when the order exists, silently do nothing when it does
not — and redirect to the success page; any other code redirects to the
failure page. -/
def vnpayReturn (st : St) (responseCode : String) (txnRef : Nat) : St × Resp :=
  if responseCode = "00" then
    (match st.findOrder txnRef with
     | some o => st.saveOrder txnRef { o with status := .Paid }
     | none => st,
     .redirectSuccess)
  else
    (st, .redirectFailed)

/-- Persist a list of fetched-and-modified product documents in order
(the `for (const product of updatedProducts) await product.save()` loop of
lines 137-139).  When the same product id occurs twice the later save
overwrites the earlier one, as two independent Mongoose documents for the
same `_id` do. -/
def saveAll (st : St) (l : List (Nat × Product)) : St :=
  l.foldl (fun s pr => s.saveProduct pr.1 pr.2) st

/-- The list of decremented product documents the reservation loop builds
when every fetch succeeds: each entry is the product as read from the
snapshot `st`, with the line item's quantity subtracted. -/
def reservedList (st : St) : List LineItem → List (Nat × Product)
  | [] => []
  | it :: rest =>
    (match st.findProduct it.product with
     | some p => [(it.product, { p with quantity := p.quantity - it.quantity })]
     | none => []) ++ reservedList st rest

/-- The total the reservation loop accumulates: the sum over line items of
`quantity * price`, with the price read from the snapshot `st`. -/
def listTotal (st : St) : List LineItem → Int
  | [] => 0
  | it :: rest =>
    (match st.findProduct it.product with
     | some p => it.quantity * p.price
     | none => 0) + listTotal st rest

/-- Every persisted product has non-negative stock. -/
def goodProducts (st : St) : Prop :=
  ∀ pr ∈ st.products, 0 ≤ pr.2.quantity

/-- Every persisted order has non-negative line-item quantities. -/
def goodOrders (st : St) : Prop :=
  ∀ op ∈ st.orders, ∀ it ∈ op.2.items, 0 ≤ it.quantity

/-- The reachable-state well-formedness the stock invariant lives in. -/
def goodSt (st : St) : Prop :=
  goodProducts st ∧ goodOrders st

/-! Concrete states used by the counterexample and witness theorems. -/

/-- Two products and a `Paid` order over both of them, `totalAmount`
1000. -/
def stPaidTwoItems : St :=
  ⟨[(1, ⟨"A", 0, 10⟩), (2, ⟨"B", 1, 20⟩)],
   [(5, ⟨7, [⟨1, 2⟩, ⟨2, 3⟩], none, 1000, .Paid⟩)], 6⟩

/-- A single `Canceled` order. -/
def stCanceledOrder : St :=
  ⟨[], [(5, ⟨1, [⟨1, 1⟩], none, 100, .Canceled⟩)], 6⟩

/-- A single `Pending` order. -/
def stPendingOrder : St :=
  ⟨[], [(1, ⟨2, [⟨3, 1⟩], none, 250, .Pending⟩)], 2⟩

/-- One product and a `Paid` single-item order over it. -/
def stPaidOneItem : St :=
  ⟨[(4, ⟨"C", 7, 50⟩)], [(9, ⟨2, [⟨4, 1⟩], some 3, 600, .Paid⟩)], 10⟩

/-- One product, no orders (stock 5). -/
def stOneProductFive : St :=
  ⟨[(1, ⟨"A", 5, 10⟩)], [], 0⟩

/-- One product with stock 5 and price 1, no orders. -/
def stStockFive : St :=
  ⟨[(1, ⟨"S", 5, 1⟩)], [], 0⟩

/-- One product with stock 7 and a `Paid` order of quantity 2 over it. -/
def stPaidQtyTwo : St :=
  ⟨[(4, ⟨"D", 7, 50⟩)], [(9, ⟨2, [⟨4, 2⟩], some 3, 600, .Paid⟩)], 10⟩

/-- One product with stock 10 and price 7. -/
def stStockTen : St :=
  ⟨[(3, ⟨"Q", 10, 7⟩)], [], 4⟩

/-- The end-to-end example of the spec: product with quantity 10 and
price 100. -/
def stSpecExample : St :=
  ⟨[(1, ⟨"P", 10, 100⟩)], [], 0⟩

/-- One product with stock 6 and price 40. -/
def stStockSix : St :=
  ⟨[(2, ⟨"E", 6, 40⟩)], [], 3⟩

/-- One product with stock 9 and price 30. -/
def stStockNine : St :=
  ⟨[(2, ⟨"R", 9, 30⟩)], [], 1⟩

/-- One product with stock 8 and price 25. -/
def stStockEight : St :=
  ⟨[(5, ⟨"G", 8, 25⟩)], [], 2⟩

/-- One product and a `Pending` order over it. -/
def stPendingOverStock : St :=
  ⟨[(4, ⟨"H", 3, 9⟩)], [(1, ⟨6, [⟨4, 1⟩], none, 80, .Pending⟩)], 2⟩

/-- A single `Paid` order with no items and no products. -/
def stPaidNoProducts : St :=
  ⟨[], [(2, ⟨3, [], none, 10, .Paid⟩)], 3⟩

/-! ## Association-list store lemmas -/

theorem findById_mem {α : Type} {l : List (Nat × α)} {k : Nat} {v : α}
    (h : findById l k = some v) : (k, v) ∈ l := by
  unfold findById at h
  obtain ⟨pr, hfind, hsnd⟩ := Option.map_eq_some'.mp h
  have hk : pr.1 = k := by simpa using List.find?_some hfind
  have hmem := List.mem_of_find?_eq_some hfind
  have : (k, v) = pr := by
    cases pr
    simp_all
  rwa [this]

theorem findById_eq_none {α : Type} {l : List (Nat × α)} {k : Nat}
    (h : findById l k = none) : l.find? (fun p => p.1 = k) = none := by
  unfold findById at h
  exact Option.map_eq_none'.mp h

theorem findById_append_fresh {α : Type} (l : List (Nat × α)) (k : Nat) (v : α)
    (h : findById l k = none) : findById (l ++ [(k, v)]) k = some v := by
  unfold findById
  rw [List.find?_append, findById_eq_none h]
  simp [List.find?]

theorem findById_map_update_self {α : Type} {k : Nat} {v : α} :
    ∀ (l : List (Nat × α)), ((l.find? fun p => p.1 = k)).isSome →
      findById (l.map fun p => if p.1 = k then (k, v) else p) k = some v := by
  intro l
  induction l with
  | nil => intro h; simp [List.find?] at h
  | cons hd tl ih =>
    intro h
    by_cases h0 : hd.1 = k
    · simp [findById, List.find?, h0]
    · have h' : ((tl.find? fun p => p.1 = k)).isSome := by
        simpa [List.find?_cons_of_neg, h0] using h
      have := ih h'
      unfold findById at this ⊢
      simpa [List.find?_cons_of_neg, h0] using this

theorem findById_saveById_self {α : Type} (l : List (Nat × α)) (k : Nat) (v : α) :
    findById (saveById l k v) k = some v := by
  unfold saveById
  by_cases h : ((l.find? fun p => p.1 = k)).isSome
  · rw [if_pos h]
    exact findById_map_update_self l h
  · rw [if_neg h]
    refine findById_append_fresh l k v ?_
    unfold findById
    cases hf : l.find? (fun p => p.1 = k) with
    | none => rfl
    | some pr => rw [hf] at h; simp at h

theorem findById_map_update_ne {α : Type} {k k' : Nat} {v : α} (hne : k' ≠ k) :
    ∀ (l : List (Nat × α)),
      findById (l.map fun p => if p.1 = k then (k, v) else p) k' = findById l k' := by
  intro l
  induction l with
  | nil => rfl
  | cons hd tl ih =>
    by_cases h0 : hd.1 = k
    · have hkk : ¬ ((k, v).1 = k') := by simpa using (Ne.symm hne)
      have hhd : ¬ (hd.1 = k') := by rw [h0]; exact fun h => hne h.symm
      unfold findById at ih ⊢
      simpa [List.find?_cons_of_neg, h0, hkk, hhd] using ih
    · by_cases h1 : hd.1 = k'
      · unfold findById
        have hmap : (hd :: tl).map (fun p => if p.1 = k then (k, v) else p) =
            hd :: tl.map (fun p => if p.1 = k then (k, v) else p) := by
          simp [if_neg h0]
        rw [hmap, List.find?_cons_of_pos _ (by simpa using h1),
          List.find?_cons_of_pos _ (by simpa using h1)]
      · unfold findById at ih ⊢
        simpa [List.find?_cons_of_neg, h0, h1] using ih

theorem findById_saveById_ne {α : Type} (l : List (Nat × α)) {k k' : Nat} (v : α)
    (hne : k' ≠ k) : findById (saveById l k v) k' = findById l k' := by
  unfold saveById
  by_cases h : ((l.find? fun p => p.1 = k)).isSome
  · rw [if_pos h]
    exact findById_map_update_ne hne l
  · rw [if_neg h]
    unfold findById
    rw [List.find?_append]
    have : ([(k, v)].find? fun p => p.1 = k') = none := by
      rw [List.find?_singleton]
      simp [Ne.symm hne]
    rw [this]
    simp

theorem mem_saveById {α : Type} {l : List (Nat × α)} {k : Nat} {v : α} {x : Nat × α}
    (h : x ∈ saveById l k v) : x ∈ l ∨ x = (k, v) := by
  unfold saveById at h
  by_cases hc : ((l.find? fun p => p.1 = k)).isSome
  · rw [if_pos hc] at h
    obtain ⟨y, hy, hxy⟩ := List.mem_map.mp h
    by_cases h0 : y.1 = k
    · right; rw [← hxy, if_pos h0]
    · left; rwa [← hxy, if_neg h0]
  · rw [if_neg hc] at h
    rcases List.mem_append.mp h with h' | h'
    · exact Or.inl h'
    · exact Or.inr (List.mem_singleton.mp h')

/-! ## Lemmas about `saveAll`, `reservedList` and the reservation loop -/

theorem saveAll_orders (l : List (Nat × Product)) :
    ∀ st : St, (saveAll st l).orders = st.orders := by
  induction l with
  | nil => intro st; rfl
  | cons hd tl ih => intro st; exact ih (st.saveProduct hd.1 hd.2)

theorem saveAll_nextOrderId (l : List (Nat × Product)) :
    ∀ st : St, (saveAll st l).nextOrderId = st.nextOrderId := by
  induction l with
  | nil => intro st; rfl
  | cons hd tl ih => intro st; exact ih (st.saveProduct hd.1 hd.2)

theorem findProduct_saveAll_of_not_mem {l : List (Nat × Product)} {pid : Nat}
    (h : pid ∉ l.map Prod.fst) :
    ∀ st : St, (saveAll st l).findProduct pid = st.findProduct pid := by
  induction l with
  | nil => intro st; rfl
  | cons hd tl ih =>
    intro st
    have hne : pid ≠ hd.1 := by
      intro he
      exact h (by simp [he])
    have htl : pid ∉ tl.map Prod.fst := by
      intro hm
      exact h (by simp [hm])
    have := ih htl (st.saveProduct hd.1 hd.2)
    calc (saveAll st (hd :: tl)).findProduct pid
        = (st.saveProduct hd.1 hd.2).findProduct pid := this
      _ = st.findProduct pid := findById_saveById_ne st.products hd.2 hne

theorem findProduct_saveAll_of_mem {l : List (Nat × Product)} {pid : Nat} {v : Product}
    (hnd : (l.map Prod.fst).Nodup) (hmem : (pid, v) ∈ l) :
    ∀ st : St, (saveAll st l).findProduct pid = some v := by
  induction l with
  | nil => exact absurd hmem (List.not_mem_nil _)
  | cons hd tl ih =>
    intro st
    rw [List.map_cons, List.nodup_cons] at hnd
    rcases List.mem_cons.mp hmem with he | hm
    · have hk : pid = hd.1 := by rw [← he]
      have hv : hd.2 = v := by rw [← he]
      have hnotm : pid ∉ tl.map Prod.fst := hk ▸ hnd.1
      calc (saveAll st (hd :: tl)).findProduct pid
          = (st.saveProduct hd.1 hd.2).findProduct pid :=
            findProduct_saveAll_of_not_mem hnotm (st.saveProduct hd.1 hd.2)
        _ = some v := by
            rw [hk, hv]
            exact findById_saveById_self st.products hd.1 v
    · exact ih hnd.2 hm (st.saveProduct hd.1 hd.2)

theorem goodProducts_saveAll {l : List (Nat × Product)}
    (hl : ∀ x ∈ l, 0 ≤ x.2.quantity) :
    ∀ st : St, goodProducts st → goodProducts (saveAll st l) := by
  induction l with
  | nil => intro st h; exact h
  | cons hd tl ih =>
    intro st hst
    refine ih (fun x hx => hl x (List.mem_cons_of_mem _ hx)) _ ?_
    intro pr hpr
    rcases mem_saveById hpr with h' | h'
    · exact hst pr h'
    · rw [h']
      exact hl hd (List.mem_cons_self _ _)

theorem goodOrders_saveAll {l : List (Nat × Product)} {st : St}
    (h : goodOrders st) : goodOrders (saveAll st l) := by
  unfold goodOrders at h ⊢
  rw [saveAll_orders]
  exact h

theorem mem_reservedList {st : St} {items : List LineItem} {it : LineItem}
    (hmem : it ∈ items) {p : Product} (hp : st.findProduct it.product = some p) :
    (it.product, { p with quantity := p.quantity - it.quantity }) ∈ reservedList st items := by
  induction items with
  | nil => exact absurd hmem (List.not_mem_nil _)
  | cons hd tl ih =>
    rcases List.mem_cons.mp hmem with he | hm
    · subst he
      unfold reservedList
      rw [hp]
      exact List.mem_append_left _ (List.mem_singleton.mpr rfl)
    · unfold reservedList
      exact List.mem_append_right _ (ih hm)

theorem reservedList_keys {st : St} {items : List LineItem}
    (h : ∀ it ∈ items, (st.findProduct it.product).isSome) :
    (reservedList st items).map Prod.fst = items.map LineItem.product := by
  induction items with
  | nil => rfl
  | cons hd tl ih =>
    obtain ⟨p, hp⟩ := Option.isSome_iff_exists.mp (h hd (List.mem_cons_self _ _))
    unfold reservedList
    rw [hp, List.map_append]
    rw [ih (fun it hit => h it (List.mem_cons_of_mem _ hit))]
    rfl

theorem reservedList_nonneg {st : St} {items : List LineItem}
    (hok : ∀ it ∈ items, ∃ p, st.findProduct it.product = some p ∧ it.quantity ≤ p.quantity) :
    ∀ x ∈ reservedList st items, 0 ≤ x.2.quantity := by
  induction items with
  | nil => intro x hx; exact absurd hx (List.not_mem_nil _)
  | cons hd tl ih =>
    intro x hx
    obtain ⟨p, hp, hq⟩ := hok hd (List.mem_cons_self _ _)
    unfold reservedList at hx
    rw [hp] at hx
    rcases List.mem_append.mp hx with h' | h'
    · rw [List.mem_singleton.mp h']
      simpa using hq
    · exact ih (fun it hit => hok it (List.mem_cons_of_mem _ hit)) x h'

theorem reserveItems_ok {st : St} {items : List LineItem}
    (hok : ∀ it ∈ items, ∃ p, st.findProduct it.product = some p ∧ it.quantity ≤ p.quantity) :
    ∀ (t : Int) (a : List (Nat × Product)),
      reserveItems st items t a = .ok (t + listTotal st items, a ++ reservedList st items) := by
  induction items with
  | nil => intro t a; simp [reserveItems, listTotal, reservedList]
  | cons hd tl ih =>
    intro t a
    obtain ⟨p, hp, hq⟩ := hok hd (List.mem_cons_self _ _)
    have hnl : ¬ (p.quantity < hd.quantity) := not_lt.mpr hq
    simp only [reserveItems, hp, if_neg hnl]
    rw [ih (fun it hit => hok it (List.mem_cons_of_mem _ hit))]
    simp only [listTotal, reservedList, hp]
    rw [add_assoc, List.append_assoc]

theorem reserveItems_err {st : St} {items : List LineItem}
    (hbad : ∃ it ∈ items, st.findProduct it.product = none ∨
      ∃ p, st.findProduct it.product = some p ∧ p.quantity < it.quantity) :
    ∀ (t : Int) (a : List (Nat × Product)), ∃ it ∈ items,
      (st.findProduct it.product = none ∧
        reserveItems st items t a = .error (.notFound (productNotFoundMsg it.product))) ∨
      (∃ p, st.findProduct it.product = some p ∧ p.quantity < it.quantity ∧
        reserveItems st items t a =
          .error (.badRequest (insufficientStockMsg p.name p.quantity it.quantity))) := by
  induction items with
  | nil => obtain ⟨it, hit, _⟩ := hbad; exact absurd hit (List.not_mem_nil _)
  | cons hd tl ih =>
    intro t a
    cases hfind : st.findProduct hd.product with
    | none =>
      refine ⟨hd, List.mem_cons_self _ _, Or.inl ⟨hfind, ?_⟩⟩
      simp only [reserveItems, hfind]
    | some p =>
      by_cases hlt : p.quantity < hd.quantity
      · refine ⟨hd, List.mem_cons_self _ _, Or.inr ⟨p, hfind, hlt, ?_⟩⟩
        simp only [reserveItems, hfind, if_pos hlt]
      · have hbad' : ∃ it ∈ tl, st.findProduct it.product = none ∨
            ∃ p, st.findProduct it.product = some p ∧ p.quantity < it.quantity := by
          obtain ⟨it, hit, hcase⟩ := hbad
          rcases List.mem_cons.mp hit with he | hm
          · subst he
            rcases hcase with h' | ⟨p', hp', hlt'⟩
            · rw [hfind] at h'; exact absurd h' (by simp)
            · rw [hfind] at hp'
              exact absurd (Option.some.inj hp' ▸ hlt') hlt
          · exact ⟨it, hm, hcase⟩
        obtain ⟨it, hit, hres⟩ := ih hbad' (t + hd.quantity * p.price)
          (a ++ [(hd.product, { p with quantity := p.quantity - hd.quantity })])
        refine ⟨it, List.mem_cons_of_mem _ hit, ?_⟩
        simpa only [reserveItems, hfind, if_neg hlt] using hres

theorem reserveItems_ok_nonneg {st : St} :
    ∀ {items : List LineItem} {t : Int} {a : List (Nat × Product)} {t' : Int}
      {upd : List (Nat × Product)},
      reserveItems st items t a = .ok (t', upd) → ∀ x ∈ upd, x ∈ a ∨ 0 ≤ x.2.quantity := by
  intro items
  induction items with
  | nil =>
    intro t a t' upd h x hx
    unfold reserveItems at h
    obtain ⟨-, h2⟩ := Prod.mk.injEq .. ▸ Except.ok.inj h
    exact Or.inl (h2 ▸ hx)
  | cons hd tl ih =>
    intro t a t' upd h x hx
    cases hfind : st.findProduct hd.product with
    | none =>
      simp only [reserveItems, hfind] at h
      exact absurd h (by simp)
    | some p =>
      simp only [reserveItems, hfind] at h
      by_cases hlt : p.quantity < hd.quantity
      · rw [if_pos hlt] at h; exact absurd h (by simp)
      · rw [if_neg hlt] at h
        rcases ih h x hx with hmem | hq
        · rcases List.mem_append.mp hmem with h' | h'
          · exact Or.inl h'
          · right
            rw [List.mem_singleton.mp h']
            simpa using not_lt.mp hlt
        · exact Or.inr hq

/-- A submission whose every line item finds its product with enough stock
runs the whole success path: stock writes, order insert, and the
gateway-dependent response. -/
theorem addToCart_valid_run (st : St) (account : Nat) (items : List LineItem)
    (promoId : Nat) (gw : Bool) (hne : items ≠ [])
    (hok : ∀ it ∈ items, ∃ p, st.findProduct it.product = some p ∧ it.quantity ≤ p.quantity)
    (hq1 : ∀ it ∈ items, 1 ≤ it.quantity) :
    addToCart st (some account) items (some promoId) gw =
      ((saveAll st (reservedList st items)).insertOrder
        ⟨account, items, some promoId, listTotal st items, .Pending⟩,
       if gw then .created st.nextOrderId else .serverError) := by
  have hemp : items.isEmpty = false := by
    cases items with
    | nil => exact absurd rfl hne
    | cons hd tl => rfl
  have hval : orderSaveValidates (PromoField.objectId promoId) items = true := by
    unfold orderSaveValidates PromoField.castOk
    rw [Bool.true_and]
    exact List.all_eq_true.mpr fun it hit => decide_eq_true (hq1 it hit)
  unfold addToCart
  rw [hemp]
  rw [reserveItems_ok hok 0 []]
  simp only [zero_add, List.nil_append, Bool.false_eq_true, if_false, hval, if_true,
    saveAll, PromoField.toRef]
  rw [show ∀ l st0, List.foldl (fun (s : St) (pr : Nat × Product) => s.saveProduct pr.1 pr.2) st0 l
      = saveAll st0 l from fun l st0 => rfl]
  rw [saveAll_nextOrderId]
  cases gw <;> rfl

/-- The observable facts of a valid run: response, the persisted order and
the per-product stock decrements (distinct products). -/
theorem addToCart_valid_facts (st : St) (account : Nat) (items : List LineItem)
    (promoId : Nat) (gw : Bool) (hne : items ≠ [])
    (hnodup : (items.map LineItem.product).Nodup)
    (hfresh : st.findOrder st.nextOrderId = none)
    (hok : ∀ it ∈ items, ∃ p, st.findProduct it.product = some p ∧ it.quantity ≤ p.quantity)
    (hq1 : ∀ it ∈ items, 1 ≤ it.quantity) :
    (addToCart st (some account) items (some promoId) gw).2 =
      (if gw then Resp.created st.nextOrderId else Resp.serverError) ∧
    (addToCart st (some account) items (some promoId) gw).1.findOrder st.nextOrderId =
      some ⟨account, items, some promoId, listTotal st items, .Pending⟩ ∧
    ∀ it ∈ items, ∃ p, st.findProduct it.product = some p ∧
      (addToCart st (some account) items (some promoId) gw).1.findProduct it.product =
        some { p with quantity := p.quantity - it.quantity } := by
  rw [addToCart_valid_run st account items promoId gw hne hok hq1]
  refine ⟨rfl, ?_, ?_⟩
  · show findById ((saveAll st (reservedList st items)).orders ++
      [((saveAll st (reservedList st items)).nextOrderId, _)]) st.nextOrderId = _
    rw [saveAll_orders, saveAll_nextOrderId]
    exact findById_append_fresh st.orders st.nextOrderId _ hfresh
  · intro it hit
    obtain ⟨p, hp, hq⟩ := hok it hit
    refine ⟨p, hp, ?_⟩
    show (saveAll st (reservedList st items)).findProduct it.product = _
    have hall : ∀ it' ∈ items, (st.findProduct it'.product).isSome := by
      intro it' hit'
      obtain ⟨p', hp', -⟩ := hok it' hit'
      rw [hp']
      rfl
    have hnd : ((reservedList st items).map Prod.fst).Nodup := by
      rw [reservedList_keys hall]
      exact hnodup
    exact findProduct_saveAll_of_mem hnd (mem_reservedList hit hp) st

/-- Whatever the promotion field and gateway outcome, once the reservation
loop succeeds the persisted products are exactly the saved decremented
copies: the stock writes happen before order validation and the gateway
call, and neither later step touches products. -/
theorem addToCart_products_of_ok (st : St) (account : Nat) (items : List LineItem)
    (promotion? : Option Nat) (gw : Bool) (hne : items ≠ [])
    (hok : ∀ it ∈ items, ∃ p, st.findProduct it.product = some p ∧ it.quantity ≤ p.quantity) :
    ((addToCart st (some account) items promotion? gw).1).products =
      (saveAll st (reservedList st items)).products := by
  have hemp : items.isEmpty = false := by
    cases items with
    | nil => exact absurd rfl hne
    | cons hd tl => rfl
  unfold addToCart
  rw [hemp]
  rw [reserveItems_ok hok 0 []]
  simp only [zero_add, List.nil_append, Bool.false_eq_true, if_false]
  rw [show ∀ l st0, List.foldl (fun (s : St) (pr : Nat × Product) => s.saveProduct pr.1 pr.2) st0 l
      = saveAll st0 l from fun l st0 => rfl]
  split
  · split <;> rfl
  · rfl

/-! ## Preservation of the non-negativity invariant -/

theorem goodSt_saveProduct {st : St} {pid : Nat} {p : Product}
    (h : goodSt st) (hq : 0 ≤ p.quantity) : goodSt (st.saveProduct pid p) := by
  refine ⟨?_, h.2⟩
  intro pr hpr
  rcases mem_saveById hpr with h' | h'
  · exact h.1 pr h'
  · rw [h']
    exact hq

theorem goodSt_saveOrder {st : St} {oid : Nat} {o : Order}
    (h : goodSt st) (hitems : ∀ it ∈ o.items, 0 ≤ it.quantity) :
    goodSt (st.saveOrder oid o) := by
  refine ⟨h.1, ?_⟩
  intro op hop
  rcases mem_saveById hop with h' | h'
  · exact h.2 op h'
  · rw [h']
    exact hitems

/-- The state a cart submission can leave behind: untouched, stock saved,
or stock saved plus the inserted `Pending` order. -/
theorem addToCart_state_shape (st : St) (account? : Option Nat) (items : List LineItem)
    (promotion? : Option Nat) (gw : Bool) :
    (addToCart st account? items promotion? gw).1 = st ∨
    ∃ t upd, reserveItems st items 0 [] = .ok (t, upd) ∧
      ((addToCart st account? items promotion? gw).1 = saveAll st upd ∨
        ∃ acc promo, items.all (fun it => 1 ≤ it.quantity) = true ∧
          (addToCart st account? items promotion? gw).1 =
            (saveAll st upd).insertOrder ⟨acc, items, promo, t, .Pending⟩) := by
  unfold addToCart
  cases account? with
  | none => exact Or.inl rfl
  | some acc =>
    dsimp only
    by_cases hemp : items.isEmpty = true
    · rw [if_pos hemp]
      exact Or.inl rfl
    · rw [if_neg hemp]
      cases hres : reserveItems st items 0 [] with
      | error r =>
        simp only [hres]
        exact Or.inl trivial
      | ok pr =>
        obtain ⟨t, upd⟩ := pr
        simp only [hres]
        refine Or.inr ⟨t, upd, rfl, ?_⟩
        by_cases hval : orderSaveValidates
            (match promotion? with
             | some n => PromoField.objectId n
             | none => PromoField.noneLiteral) items = true
        · have hall : (items.all fun it => decide (1 ≤ it.quantity)) = true := by
            unfold orderSaveValidates at hval
            exact (Bool.and_eq_true _ _ |>.mp hval).2
          refine Or.inr ⟨acc,
            (match promotion? with
             | some n => PromoField.objectId n
             | none => PromoField.noneLiteral).toRef, hall, ?_⟩
          rw [if_pos hval]
          cases gw <;> rfl
        · rw [if_neg hval]
          exact Or.inl rfl

theorem goodSt_addToCart {st : St} (h : goodSt st) (account? : Option Nat)
    (items : List LineItem) (promotion? : Option Nat) (gw : Bool) :
    goodSt (addToCart st account? items promotion? gw).1 := by
  rcases addToCart_state_shape st account? items promotion? gw with heq | ⟨t, upd, hres, hcase⟩
  · rw [heq]; exact h
  · have hupd : ∀ x ∈ upd, 0 ≤ x.2.quantity := by
      intro x hx
      rcases reserveItems_ok_nonneg hres x hx with h' | h'
      · exact absurd h' (List.not_mem_nil x)
      · exact h'
    have hS : goodSt (saveAll st upd) :=
      ⟨goodProducts_saveAll hupd st h.1, goodOrders_saveAll h.2⟩
    rcases hcase with heq | ⟨acc, promo, hall, heq⟩
    · rw [heq]; exact hS
    · rw [heq]
      refine ⟨hS.1, ?_⟩
      intro op hop
      rcases List.mem_append.mp hop with h' | h'
      · exact hS.2 op h'
      · rw [List.mem_singleton.mp h']
        intro it hit
        have h1 : 1 ≤ it.quantity := of_decide_eq_true (List.all_eq_true.mp hall it hit)
        exact le_trans zero_le_one h1

theorem goodSt_cancelOrder {st : St} (h : goodSt st) (oid : Nat) :
    goodSt (cancelOrder st oid).1 := by
  unfold cancelOrder
  cases hfind : st.findOrder oid with
  | none => exact h
  | some o =>
    dsimp only
    by_cases hst : o.status ≠ OrderStatus.Paid
    · rw [if_pos hst]
      exact h
    · rw [if_neg hst]
      cases hitems : o.items with
      | nil => exact h
      | cons item rest =>
        have hoin : (oid, o) ∈ st.orders := findById_mem hfind
        have hoitems : ∀ it ∈ o.items, 0 ≤ it.quantity := h.2 (oid, o) hoin
        have hitq : 0 ≤ item.quantity :=
          hoitems item (by rw [hitems]; exact List.mem_cons_self _ _)
        have hst1 : goodSt (match st.findProduct item.product with
            | some p => st.saveProduct item.product { p with quantity := p.quantity + item.quantity }
            | none => st) := by
          cases hp : st.findProduct item.product with
          | none => exact h
          | some p =>
            exact goodSt_saveProduct h
              (add_nonneg (h.1 (item.product, p) (findById_mem hp)) hitq)
        exact goodSt_saveOrder hst1 (hitems ▸ hoitems)

theorem goodSt_vnpayReturn {st : St} (h : goodSt st) (responseCode : String) (txnRef : Nat) :
    goodSt (vnpayReturn st responseCode txnRef).1 := by
  unfold vnpayReturn
  by_cases hc : responseCode = "00"
  · rw [if_pos hc]
    cases hfind : st.findOrder txnRef with
    | none => exact h
    | some o => exact goodSt_saveOrder h (h.2 (txnRef, o) (findById_mem hfind))
  · rw [if_neg hc]
    exact h

/-! ## The claims -/

/-- Claim C1 (code bug): canceling a `Paid` order is claimed to succeed
with a 200 response, a 50% refund and full stock restoration.  On the
concrete `Paid` order with `totalAmount` 1000 over two line items the
handler instead restores only the first line item's stock (product 1 goes
0 → 2 while product 2 stays at 1 instead of 1 → 4), persists the status
`Canceled`, and answers 500 — the unreachable 200 of the source is cut off
by the ReferenceError in the e-mail block. -/
theorem c1_cancel_paid_answers_500_with_partial_restore :
    (cancelOrder stPaidTwoItems 5).2 = Resp.serverError ∧
    ((cancelOrder stPaidTwoItems 5).1.findProduct 1).map Product.quantity = some 2 ∧
    ((cancelOrder stPaidTwoItems 5).1.findProduct 2).map Product.quantity = some 1 ∧
    ((cancelOrder stPaidTwoItems 5).1.findOrder 5).map Order.status =
      some OrderStatus.Canceled := by
  decide

/-- Claim C2, counterexample: a success callback on an order that is
already `Canceled` is not a no-op — it moves the order back to `Paid`, so
a callback sequence can leave the `Canceled` state. -/
theorem c2_counterexample_canceled_order_back_to_paid :
    (stCanceledOrder.findOrder 5).map Order.status = some OrderStatus.Canceled ∧
    ((vnpayReturn stCanceledOrder "00" 5).1.findOrder 5).map Order.status =
      some OrderStatus.Paid := by
  decide

/-- Claim C2 (amended): a payment success callback sets the referenced
order's status to `Paid` unconditionally, whatever its current status —
including `Canceled` — and redirects to the success page; nothing else in
the state changes. -/
theorem c2_success_callback_sets_paid_unconditionally (st : St) (oid : Nat) (o : Order)
    (h : st.findOrder oid = some o) :
    vnpayReturn st "00" oid =
      (st.saveOrder oid { o with status := OrderStatus.Paid }, Resp.redirectSuccess) := by
  unfold vnpayReturn
  rw [if_pos rfl, h]

/-- Witness for C2's amended theorem at a concrete `Pending` order. -/
theorem c2_witness :
    vnpayReturn stPendingOrder "00" 1 =
      (stPendingOrder.saveOrder 1 ⟨2, [⟨3, 1⟩], none, 250, OrderStatus.Paid⟩,
       Resp.redirectSuccess) :=
  c2_success_callback_sets_paid_unconditionally stPendingOrder 1
    ⟨2, [⟨3, 1⟩], none, 250, OrderStatus.Pending⟩ rfl

/-- Claim C3 (code bug): cancellation is claimed atomic — an error outcome
must leave stock and status untouched.  On a concrete `Paid` single-item
order the handler answers 500 (an error outcome) yet the persisted state
has the stock restored (7 → 8) and the status moved to `Canceled`. -/
theorem c3_error_outcome_commits_mutations :
    (cancelOrder stPaidOneItem 9).2 = Resp.serverError ∧
    (stPaidOneItem.findProduct 4).map Product.quantity = some 7 ∧
    ((cancelOrder stPaidOneItem 9).1.findProduct 4).map Product.quantity = some 8 ∧
    ((cancelOrder stPaidOneItem 9).1.findOrder 9).map Order.status =
      some OrderStatus.Canceled := by
  decide

/-- Claim C4: a cart in which some line item references a missing product
or exceeds its stock is rejected — 404 naming the product id, or 400
naming the product and the available vs requested quantities — with the
persisted state (products and orders alike) exactly as before. -/
theorem c4_invalid_cart_rejected_without_mutation (st : St) (account : Nat)
    (items : List LineItem) (promotion? : Option Nat) (gw : Bool)
    (hbad : ∃ it ∈ items, st.findProduct it.product = none ∨
      ∃ p, st.findProduct it.product = some p ∧ p.quantity < it.quantity) :
    (addToCart st (some account) items promotion? gw).1 = st ∧
    ∃ it ∈ items,
      (st.findProduct it.product = none ∧
        (addToCart st (some account) items promotion? gw).2 =
          Resp.notFound (productNotFoundMsg it.product)) ∨
      ∃ p, st.findProduct it.product = some p ∧ p.quantity < it.quantity ∧
        (addToCart st (some account) items promotion? gw).2 =
          Resp.badRequest (insufficientStockMsg p.name p.quantity it.quantity) := by
  have hemp : items.isEmpty = false := by
    obtain ⟨it0, hit0, -⟩ := hbad
    cases items with
    | nil => exact absurd hit0 (List.not_mem_nil _)
    | cons hd tl => rfl
  obtain ⟨it, hit, hcase⟩ := reserveItems_err hbad 0 []
  rcases hcase with ⟨hfind, heq⟩ | ⟨p, hp, hlt, heq⟩
  · have hrun : addToCart st (some account) items promotion? gw =
        (st, Resp.notFound (productNotFoundMsg it.product)) := by
      unfold addToCart
      dsimp only
      simp only [hemp, Bool.false_eq_true, if_false, heq]
    rw [hrun]
    exact ⟨rfl, it, hit, Or.inl ⟨hfind, rfl⟩⟩
  · have hrun : addToCart st (some account) items promotion? gw =
        (st, Resp.badRequest (insufficientStockMsg p.name p.quantity it.quantity)) := by
      unfold addToCart
      dsimp only
      simp only [hemp, Bool.false_eq_true, if_false, heq]
    rw [hrun]
    exact ⟨rfl, it, hit, Or.inr ⟨p, hp, hlt, rfl⟩⟩

/-- Witness for C4 at a mixed cart: one satisfiable line item and one
referencing a missing product. -/
theorem c4_witness :
    (addToCart stOneProductFive (some 7) [⟨1, 2⟩, ⟨2, 1⟩] none true).1 = stOneProductFive ∧
    ∃ it ∈ [LineItem.mk 1 2, LineItem.mk 2 1],
      (stOneProductFive.findProduct it.product = none ∧
        (addToCart stOneProductFive (some 7) [⟨1, 2⟩, ⟨2, 1⟩] none true).2 =
          Resp.notFound (productNotFoundMsg it.product)) ∨
      ∃ p, stOneProductFive.findProduct it.product = some p ∧ p.quantity < it.quantity ∧
        (addToCart stOneProductFive (some 7) [⟨1, 2⟩, ⟨2, 1⟩] none true).2 =
          Resp.badRequest (insufficientStockMsg p.name p.quantity it.quantity) :=
  c4_invalid_cart_rejected_without_mutation stOneProductFive 7 [⟨1, 2⟩, ⟨2, 1⟩] none true
    ⟨⟨2, 1⟩, by decide, Or.inl rfl⟩

/-- Claim C5, counterexample: a cart listing the same product in two line
items of 3 each, against stock 5, is accepted (201) — each item is checked
against a fresh read — and the persisted quantity ends at 2, i.e. only the
last item's decrement sticks while the order reserves 6 > 5. -/
theorem c5_counterexample_duplicate_product_oversell :
    (addToCart stStockFive (some 1) [⟨1, 3⟩, ⟨1, 3⟩] (some 2) true).2 = Resp.created 0 ∧
    ((addToCart stStockFive (some 1) [⟨1, 3⟩, ⟨1, 3⟩] (some 2) true).1.findProduct 1).map
      Product.quantity = some 2 ∧
    ((addToCart stStockFive (some 1) [⟨1, 3⟩, ⟨1, 3⟩] (some 2) true).1.findOrder 0).map
      (fun o => (o.items.map LineItem.quantity).sum) = some 6 ∧
    ¬ ((6 : Int) ≤ 5) := by
  decide

/-- Claim C5 (amended): from any well-formed state (all product stocks and
order line-item quantities non-negative), every cart submission, payment
callback and cancellation preserves well-formedness — in particular no
product quantity ever goes negative; and for a submission whose line items
reference pairwise-distinct products and all pass the stock check, each
referenced product's persisted quantity is decremented by exactly its line
item's quantity.  (For carts repeating a product, only the last line
item's decrement persists, as the counterexample shows.) -/
theorem c5_stock_never_negative (st : St) (hgood : goodSt st) :
    (∀ account? items promotion? gw, goodSt (addToCart st account? items promotion? gw).1) ∧
    (∀ responseCode txnRef, goodSt (vnpayReturn st responseCode txnRef).1) ∧
    (∀ orderId, goodSt (cancelOrder st orderId).1) ∧
    (∀ account items promotion? gw, items ≠ [] →
      (items.map LineItem.product).Nodup →
      (∀ it ∈ items, ∃ p, st.findProduct it.product = some p ∧ it.quantity ≤ p.quantity) →
      ∀ it ∈ items, ∃ p, st.findProduct it.product = some p ∧
        (addToCart st (some account) items promotion? gw).1.findProduct it.product =
          some { p with quantity := p.quantity - it.quantity }) := by
  refine ⟨fun a? i p? g => goodSt_addToCart hgood a? i p? g,
    fun rc r => goodSt_vnpayReturn hgood rc r,
    fun o => goodSt_cancelOrder hgood o, ?_⟩
  intro account items promotion? gw hne hnodup hok it hit
  obtain ⟨p, hp, hq⟩ := hok it hit
  refine ⟨p, hp, ?_⟩
  show findById (addToCart st (some account) items promotion? gw).1.products it.product = _
  rw [addToCart_products_of_ok st account items promotion? gw hne hok]
  have hall : ∀ it' ∈ items, (st.findProduct it'.product).isSome := by
    intro it' hit'
    obtain ⟨p', hp', -⟩ := hok it' hit'
    rw [hp']
    rfl
  have hnd : ((reservedList st items).map Prod.fst).Nodup := by
    rw [reservedList_keys hall]
    exact hnodup
  exact findProduct_saveAll_of_mem hnd (mem_reservedList hit hp) st

/-- Witness for C5 at a concrete well-formed state, through the
cancellation conjunct. -/
theorem c5_witness : goodSt (cancelOrder stPaidQtyTwo 9).1 :=
  (c5_stock_never_negative stPaidQtyTwo
    (by unfold goodSt goodProducts goodOrders; decide)).2.2.1 9

/-- Claim C6, counterexample: (a) a cart repeating the same product (4+4
against stock 10) is accepted with the quantity persisted as 6 — not the
10−8=2 the per-line-item decrement demands; (b) an otherwise valid
submission without a promotion identifier ends in 500 with no order
persisted, because the handler's `"None"` default fails the ObjectId
cast. -/
theorem c6_counterexample_duplicates_and_missing_promotion :
    ((addToCart stStockTen (some 1) [⟨3, 4⟩, ⟨3, 4⟩] (some 9) true).2 = Resp.created 4 ∧
     ((addToCart stStockTen (some 1) [⟨3, 4⟩, ⟨3, 4⟩] (some 9) true).1.findProduct 3).map
       Product.quantity = some 6 ∧
     ¬ ((6 : Int) = 10 - (4 + 4))) ∧
    ((addToCart stStockTen (some 1) [⟨3, 4⟩] none true).2 = Resp.serverError ∧
     (addToCart stStockTen (some 1) [⟨3, 4⟩] none true).1.orders = []) := by
  decide

/-- Claim C6 (amended): a valid cart submission — non-empty items over
pairwise-distinct existing products with sufficient stock and quantities
≥ 1, a promotion identifier supplied, gateway call succeeding — persists a
`Pending` order whose `totalAmount` is the sum over line items of
`quantity × price` at submission time, decrements each referenced
product's persisted quantity by the requested quantity, and answers 201
with the new order's id. -/
theorem c6_valid_submission_creates_pending_order (st : St) (account : Nat)
    (items : List LineItem) (promoId : Nat) (hne : items ≠ [])
    (hnodup : (items.map LineItem.product).Nodup)
    (hfresh : st.findOrder st.nextOrderId = none)
    (hok : ∀ it ∈ items, ∃ p, st.findProduct it.product = some p ∧
      it.quantity ≤ p.quantity ∧ 1 ≤ it.quantity) :
    (addToCart st (some account) items (some promoId) true).2 =
      Resp.created st.nextOrderId ∧
    (addToCart st (some account) items (some promoId) true).1.findOrder st.nextOrderId =
      some ⟨account, items, some promoId, listTotal st items, OrderStatus.Pending⟩ ∧
    ∀ it ∈ items, ∃ p, st.findProduct it.product = some p ∧
      (addToCart st (some account) items (some promoId) true).1.findProduct it.product =
        some { p with quantity := p.quantity - it.quantity } := by
  have h := addToCart_valid_facts st account items promoId true hne hnodup hfresh
    (fun it hit => (hok it hit).imp fun p hp => ⟨hp.1, hp.2.1⟩)
    (fun it hit => (hok it hit).choose_spec.2.2)
  simpa using h

/-- Witness for C6: the spec's end-to-end example — stock 10, price 100,
request 3 — gives a `Pending` order with total 300 and stock 7. -/
theorem c6_witness :
    (addToCart stSpecExample (some 8) [⟨1, 3⟩] (some 2) true).2 = Resp.created 0 ∧
    (addToCart stSpecExample (some 8) [⟨1, 3⟩] (some 2) true).1.findOrder 0 =
      some ⟨8, [⟨1, 3⟩], some 2, 300, OrderStatus.Pending⟩ ∧
    ∀ it ∈ [LineItem.mk 1 3], ∃ p, stSpecExample.findProduct it.product = some p ∧
      (addToCart stSpecExample (some 8) [⟨1, 3⟩] (some 2) true).1.findProduct it.product =
        some { p with quantity := p.quantity - it.quantity } :=
  c6_valid_submission_creates_pending_order stSpecExample 8 [⟨1, 3⟩] 2 (by decide)
    (by decide) rfl
    (by
      intro it hit
      rw [List.mem_singleton] at hit
      subst hit
      exact ⟨⟨"P", 10, 100⟩, rfl, by decide, by decide⟩)

/-- Claim C7 (code bug): a valid cart submitted without a promotion
identifier is claimed to succeed; instead the route's destructuring
default stores the string literal `"None"` in an ObjectId-typed field, the
order save rejects, and the handler answers 500 with no order persisted —
after the stock decrement (6 → 4) has already been saved. -/
theorem c7_missing_promotion_breaks_submission :
    (addToCart stStockSix (some 1) [⟨2, 2⟩] none true).2 = Resp.serverError ∧
    (addToCart stStockSix (some 1) [⟨2, 2⟩] none true).1.orders = [] ∧
    ((addToCart stStockSix (some 1) [⟨2, 2⟩] none true).1.findProduct 2).map
      Product.quantity = some 4 := by
  decide

/-- Claim C8, counterexample: when the gateway call fails the stock
decrement is not released — quantity 9 ends persisted as 7 — and the
`Pending` order also remains, alongside the 500 answer. -/
theorem c8_counterexample_stock_not_released :
    (addToCart stStockNine (some 4) [⟨2, 2⟩] (some 6) false).2 = Resp.serverError ∧
    (stStockNine.findProduct 2).map Product.quantity = some 9 ∧
    ((addToCart stStockNine (some 4) [⟨2, 2⟩] (some 6) false).1.findProduct 2).map
      Product.quantity = some 7 ∧
    ¬ ((7 : Int) = 9) ∧
    ((addToCart stStockNine (some 4) [⟨2, 2⟩] (some 6) false).1.findOrder 1).map
      Order.status = some OrderStatus.Pending := by
  decide

/-- Claim C8 (amended): when the payment-gateway call fails, the
submission answers a 500-equivalent, but every stock decrement already
applied stays persisted and the `Pending` order record remains — nothing
is released or rolled back. -/
theorem c8_gateway_failure_keeps_reservation (st : St) (account : Nat)
    (items : List LineItem) (promoId : Nat) (hne : items ≠ [])
    (hnodup : (items.map LineItem.product).Nodup)
    (hfresh : st.findOrder st.nextOrderId = none)
    (hok : ∀ it ∈ items, ∃ p, st.findProduct it.product = some p ∧
      it.quantity ≤ p.quantity ∧ 1 ≤ it.quantity) :
    (addToCart st (some account) items (some promoId) false).2 = Resp.serverError ∧
    (addToCart st (some account) items (some promoId) false).1.findOrder st.nextOrderId =
      some ⟨account, items, some promoId, listTotal st items, OrderStatus.Pending⟩ ∧
    ∀ it ∈ items, ∃ p, st.findProduct it.product = some p ∧
      (addToCart st (some account) items (some promoId) false).1.findProduct it.product =
        some { p with quantity := p.quantity - it.quantity } := by
  have h := addToCart_valid_facts st account items promoId false hne hnodup hfresh
    (fun it hit => (hok it hit).imp fun p hp => ⟨hp.1, hp.2.1⟩)
    (fun it hit => (hok it hit).choose_spec.2.2)
  simpa using h

/-- Witness for C8 at a concrete single-item cart with a failing
gateway. -/
theorem c8_witness :
    (addToCart stStockEight (some 9) [⟨5, 3⟩] (some 4) false).2 = Resp.serverError ∧
    (addToCart stStockEight (some 9) [⟨5, 3⟩] (some 4) false).1.findOrder 2 =
      some ⟨9, [⟨5, 3⟩], some 4, 75, OrderStatus.Pending⟩ ∧
    ∀ it ∈ [LineItem.mk 5 3], ∃ p, stStockEight.findProduct it.product = some p ∧
      (addToCart stStockEight (some 9) [⟨5, 3⟩] (some 4) false).1.findProduct it.product =
        some { p with quantity := p.quantity - it.quantity } :=
  c8_gateway_failure_keeps_reservation stStockEight 9 [⟨5, 3⟩] 4 (by decide) (by decide) rfl
    (by
      intro it hit
      rw [List.mem_singleton] at hit
      subst hit
      exact ⟨⟨"G", 8, 25⟩, rfl, by decide, by decide⟩)

/-- Claim C9: canceling a non-existent order answers 404; canceling an
order whose status is `Pending` or already `Canceled` answers 400 with the
only-paid-orders message; in both cases the state is returned exactly as
it was — no product quantity and no order field is mutated. -/
theorem c9_cancellation_preconditions (st : St) (oid : Nat) :
    (st.findOrder oid = none →
      cancelOrder st oid = (st, Resp.notFound "Không tìm thấy đơn hàng")) ∧
    ∀ o, st.findOrder oid = some o →
      (o.status = OrderStatus.Pending ∨ o.status = OrderStatus.Canceled) →
      cancelOrder st oid = (st, Resp.badRequest "Only paid orders can be canceled.") := by
  constructor
  · intro h
    unfold cancelOrder
    rw [h]
  · intro o h hstat
    have hne : o.status ≠ OrderStatus.Paid := by
      rcases hstat with h' | h' <;> rw [h'] <;> intro hc <;> exact OrderStatus.noConfusion hc
    unfold cancelOrder
    rw [h]
    dsimp only
    rw [if_pos hne]

/-- Witness for C9: a missing order id (404 branch) and a `Pending` order
(400 branch). -/
theorem c9_witness :
    cancelOrder stPendingOverStock 7 =
      (stPendingOverStock, Resp.notFound "Không tìm thấy đơn hàng") ∧
    cancelOrder stPendingOverStock 1 =
      (stPendingOverStock, Resp.badRequest "Only paid orders can be canceled.") :=
  ⟨(c9_cancellation_preconditions stPendingOverStock 7).1 rfl,
   (c9_cancellation_preconditions stPendingOverStock 1).2
     ⟨6, [⟨4, 1⟩], none, 80, OrderStatus.Pending⟩ rfl (Or.inl rfl)⟩

/-- Claim C10: a success callback (code "00") whose transaction reference
matches no order changes nothing and still redirects to the
payment-success page. -/
theorem c10_unmatched_success_callback_is_noop (st : St) (txnRef : Nat)
    (h : st.findOrder txnRef = none) :
    vnpayReturn st "00" txnRef = (st, Resp.redirectSuccess) := by
  unfold vnpayReturn
  rw [if_pos rfl, h]

/-- Witness for C10 at a concrete state with an unmatched reference. -/
theorem c10_witness :
    vnpayReturn stPaidNoProducts "00" 8 = (stPaidNoProducts, Resp.redirectSuccess) :=
  c10_unmatched_success_callback_is_noop stPaidNoProducts 8 rfl

end MmaSkincare
